import Mathlib

/-!
# Verification of the Mosaic data cube indexer

A shallow embedding of `packages/core/src/DataCubeIndexer.js` and of the
part of `packages/sql/src/Query.js` it exercises, together with proofs of
the specification claims about them.

Modelling decisions, recorded once here:

* JavaScript query objects are mutable and compared by identity (the
  push-down memo set, the CTE back-pointers).  Queries are therefore
  embedded as a *store*: a finite association list from node ids (`QId`)
  to query nodes (`QNode`).  Mutation of an object becomes an update of
  the store at its id.
* Machine numbers are embedded as exact rationals (`JsNum`).  JavaScript
  `NaN`/`Infinity` corner cases (empty scale domains, zero-width domains,
  out-of-range array reads) and floating-point rounding are noted locally
  where the embedding deviates; no claim exercises them.
* External collaborators that are not part of the given sources
  (the SQL builder helpers `asColumn`, `isBetween`, `and`, `create`, the
  hash `fnv_hash`, the scale resolver `scaleTransform`, the client
  inspector `indexColumns`, and the `Selection` capability) are modelled
  from the spec; each such definition carries a doc comment saying so.
-/

/-! ## Exact numbers -/

/-- A JavaScript number, embedded as an exact rational.  (The Mathlib
rational type's arithmetic does not reduce inside the kernel, which the
concrete witnesses need, so a small structurally computable arithmetic is
defined here.)
Floating-point rounding is not modelled; every number the claims exercise
is exact. -/
structure JsNum where
  num : Int
  den : Nat
deriving DecidableEq, Repr

instance : OfNat JsNum n := ⟨⟨(n : Int), 1⟩⟩

namespace JsNum

/-- Lowest-terms normalization; a zero denominator collapses to 0. -/
def norm (n : Int) (d : Nat) : JsNum :=
  if d = 0 then ⟨0, 1⟩
  else
    let g := Nat.gcd n.natAbs d
    ⟨n / (g : Int), d / g⟩

/-- Subtraction. -/
def sub (a b : JsNum) : JsNum :=
  norm (a.num * (b.den : Int) - b.num * (a.den : Int)) (a.den * b.den)

/-- Strict order (denominators are positive). -/
def blt (a b : JsNum) : Bool :=
  decide (a.num * (b.den : Int) < b.num * (a.den : Int))

/-- Division; division by zero yields 0 here (JavaScript gives
`±Infinity`, which no claim exercises). -/
def div (a b : JsNum) : JsNum :=
  if b.num = 0 then ⟨0, 1⟩
  else if b.num < 0 then norm (-(a.num * (b.den : Int))) (a.den * b.num.natAbs)
  else norm (a.num * (b.den : Int)) (a.den * b.num.natAbs)

/-- `Math.min` on two numbers. -/
def jmin (a b : JsNum) : JsNum := if blt b a then b else a

/-- `Math.max` on two numbers. -/
def jmax (a b : JsNum) : JsNum := if blt a b then b else a

end JsNum

/-! ## JavaScript values used as clause sources -/

/-- A JavaScript value as used for clause `source` tokens: the indexer code
only tests truthiness (`if (!source)`) and strict equality (`!==`).
`NaN` is not modelled (strict equality on it is not reflexive and no claim
uses it); objects are identified by an id, matching JS reference
equality. -/
inductive JSVal where
  | null
  | undef
  | bool (b : Bool)
  | num (q : JsNum)
  | str (s : String)
  | obj (id : Nat)
deriving DecidableEq, Repr

/-- JavaScript truthiness of a `JSVal` (`!v` is `!truthy v`). -/
def JSVal.truthy : JSVal → Bool
  | .null => false
  | .undef => false
  | .bool b => b
  | .num q => !(q.num == 0)
  | .str s => !(s == "")
  | .obj _ => true

theorem JSVal.ne_null_of_truthy {v : JSVal} (h : v.truthy = true) :
    v ≠ JSVal.null := by
  cases v <;> simp_all [JSVal.truthy]

/-! ## Number and hash formatting helpers -/

/-- Left-pad a digit string with zeros to length `k`. -/
def padZeros (k : Nat) (s : String) : String :=
  if s.length < k then String.mk (List.replicate (k - s.length) '0') ++ s else s

/-- Find the least `k ≤ 25` with `den ∣ 10 ^ k`, returning `(k, 10 ^ k / den)`. -/
def pow10div (den : Nat) : Option (Nat × Nat) :=
  (List.range 26).findSome? fun k =>
    let p := 10 ^ k
    if den ≠ 0 ∧ p % den = 0 then some (k, p / den) else none

/-- Rendering of a rational as JavaScript template-literal interpolation
renders a number: integers print their digits, terminating decimal
fractions print as decimals.  (JavaScript prints the shortest round-trip
representation of a 64-bit float; non-terminating fractions, which never
arise in the claims, fall back to a `num/den` rendering here.) -/
def ratStr (q : JsNum) : String :=
  if q.den = 1 then toString q.num
  else
    match pow10div q.den with
    | some (k, m) =>
        let n := q.num.natAbs * m
        let sign := if q.num < 0 then "-" else ""
        sign ++ toString (n / 10 ^ k) ++ "." ++ padZeros k (toString (n % 10 ^ k))
    | none => toString q.num ++ "/" ++ toString q.den

/-- Hexadecimal digit for `n < 16`, lowercase. -/
def hexDigit (n : Nat) : Char :=
  "0123456789abcdef".toList.getD n '0'

/-- Hex digits of `n`, most significant first, with recursion fuel. -/
def natToHexGo : Nat → Nat → List Char
  | 0, _ => []
  | fuel + 1, n => if n = 0 then [] else natToHexGo fuel (n / 16) ++ [hexDigit (n % 16)]

/-- Lowercase hexadecimal rendering of a natural number, no padding, as
JavaScript `(x >>> 0).toString(16)` renders a 32-bit value. -/
def natToHex (n : Nat) : String :=
  if n = 0 then "0" else String.mk (natToHexGo 16 n)

/-- UTF-8 encoding of one character. -/
def utf8EncodeChar (c : Char) : List Nat :=
  let n := c.toNat
  if n < 0x80 then [n]
  else if n < 0x800 then
    [0xC0 ||| (n >>> 6), 0x80 ||| (n &&& 0x3F)]
  else if n < 0x10000 then
    [0xE0 ||| (n >>> 12), 0x80 ||| ((n >>> 6) &&& 0x3F), 0x80 ||| (n &&& 0x3F)]
  else
    [0xF0 ||| (n >>> 18), 0x80 ||| ((n >>> 12) &&& 0x3F),
     0x80 ||| ((n >>> 6) &&& 0x3F), 0x80 ||| (n &&& 0x3F)]

/-- UTF-8 bytes of a string. -/
def utf8Bytes (s : String) : List Nat :=
  s.data.flatMap utf8EncodeChar

/-- Modelled from the spec: `fnv_hash` (`core/src/util/hash.js`, not among
the given sources) is the standard FNV-1a 32-bit hash over the UTF-8 bytes
of the string (spec §6, Hashing). -/
def fnv_hash (s : String) : Nat :=
  (utf8Bytes s).foldl (fun h b => ((h ^^^ b) * 16777619) % 4294967296) 2166136261

/-! ## SQL expressions -/

/-- A SQL expression as the indexer consumes it: either a plain column
reference (what the builder's `asColumn` makes of a string) or an opaque
piece of SQL text carrying the list of base columns it references (every
builder `SQLExpression` exposes `.columns`). -/
inductive SqlExpr where
  | column (name : String)
  | raw (text : String) (columns : List String)
deriving DecidableEq, Repr

/-- The base columns referenced by an expression (`expr.columns`). -/
def SqlExpr.columns : SqlExpr → List String
  | .column n => [n]
  | .raw _ cs => cs

/-- SQL text of an expression; the builder prints column references with
double-quoted identifiers. -/
def SqlExpr.toStr : SqlExpr → String
  | .column n => "\"" ++ n ++ "\""
  | .raw t _ => t

/-- A value a bin function can be applied to: a number (interval endpoints
from `p.range`) or an expression (the clause's `field`). -/
inductive SqlValue where
  | num (q : JsNum)
  | expr (e : SqlExpr)
deriving DecidableEq, Repr

/-- Base columns of a `SqlValue` (the `sql` template tag collects the
columns of interpolated expressions; numbers contribute none). -/
def SqlValue.columns : SqlValue → List String
  | .num _ => []
  | .expr e => e.columns

/-- Modelled from the spec: the builder's `isBetween(field, range)`
(spec §4.2) over a two-element range.  Other arities are never exercised
by the analyzer. -/
def isBetweenExpr (field : String) (range : List SqlExpr) : SqlExpr :=
  match range with
  | [a, b] =>
      .raw ("(\"" ++ field ++ "\" BETWEEN " ++ a.toStr ++ " AND " ++ b.toStr ++ ")") [field]
  | _ => .raw ("(\"" ++ field ++ "\" IS NOT NULL)") [field]

/-- Modelled from the spec: the builder's `and(list)` conjunction
(spec §4.2). -/
def andExpr (es : List SqlExpr) : SqlExpr :=
  .raw ("(" ++ String.intercalate " AND " (es.map SqlExpr.toStr) ++ ")")
    (es.flatMap SqlExpr.columns)

/-! ## Scales and the bin synthesizer -/

/-- A visual scale descriptor, already resolved to its transform data.
Spec §3: a `ScaleDescriptor` "provides `apply(v) → number` (scale
transform) and `sqlApply(expr) → sql-expression`"; unsupported scale types
have no `apply`.  `sqlApply` is kept as the rendered SQL text. -/
structure Scale where
  type : String
  domain : List JsNum
  range : List JsNum
  apply : Option (JsNum → JsNum)
  sqlApply : SqlValue → String

/-- Modelled from the spec: `scaleTransform` (`mosaic-sql`, not among the
given sources) resolves a scale descriptor to
`{ type, domain, range, apply, sqlApply }` (spec §4.5 step 1).  Since
`Scale` already carries the resolved data, resolution is the identity. -/
def scaleTransform (scale : Scale) : Scale := scale

/-- The `BIN` lookup table (`DataCubeIndexer.js` line 254): only `ceil`
and `round` have entries; everything else falls back to `FLOOR`. -/
def BIN : List (String × String) := [("ceil", "CEIL"), ("round", "ROUND")]

/-- JavaScript template-literal coercion of the (possibly undefined) bin
method: `` `${bin}` `` renders `undefined` as the string "undefined". -/
def jsCoerce : Option String → String
  | none => "undefined"
  | some s => s

/-- JavaScript `toLowerCase` on the ASCII range (bin-method strings are
ASCII), as a character-wise map. -/
def jsToLower (s : String) : String :=
  String.mk (s.data.map Char.toLower)

/-- The `fn` value chosen by `binInterval` (line 270):
`BIN[`${bin}`.toLowerCase()] || 'FLOOR'`.  JavaScript bracket access
consults the prototype chain of the plain object literal `BIN`: besides
the own properties `ceil` and `round`, the lowercased key can also hit an
`Object.prototype` property whose name is entirely lowercase — exactly
`constructor` (the `Object` constructor) and `__proto__`
(`Object.prototype`).  Both inherited values are truthy, so the
`|| 'FLOOR'` fallback does not fire for them; `fn` is then an object, and
its template-literal rendering is recorded here (`[object Object]` is
fixed by the language; the native-function rendering of `Object` is
implementation-defined but has this form in the major engines). -/
def binFnName (bin : Option String) : String :=
  let key := jsToLower (jsCoerce bin)
  match BIN.lookup key with
  | some fn => fn
  | none =>
    if key = "constructor" then "function Object() \x7b [native code] \x7d"
    else if key = "__proto__" then "[object Object]"
    else "FLOOR"

/-- Embedding of `binInterval(scale, pixelSize, bin)`
(`DataCubeIndexer.js` lines 267-277).  Returns `none` for an unsupported
scale (no `apply`).  Deviations from JavaScript, none exercised by any
claim: an empty domain (JS `Math.min()` is `Infinity`) yields `none`
here; a missing range entry reads as `0` (JS `undefined` arithmetic gives
`NaN`); division by a zero-width domain gives `0` in `JsNum` (JS gives
`Infinity`). -/
def binInterval (scale : Scale) (pixelSize : JsNum) (bin : Option String) :
    Option (SqlValue → SqlExpr) :=
  let st := scaleTransform scale
  match st.apply with
  | none => none
  | some ap =>
    match st.domain with
    | [] => none
    | d0 :: ds =>
      let fn := binFnName bin
      let lo := ap (ds.foldl JsNum.jmin d0)
      let hi := ap (ds.foldl JsNum.jmax d0)
      let r0 := (st.range.get? 0).getD 0
      let r1 := (st.range.get? 1).getD 0
      let a := if st.type = "identity" then (1 : JsNum)
               else JsNum.div
                 (if JsNum.blt (JsNum.sub r1 r0) 0 then JsNum.sub r0 r1
                  else JsNum.sub r1 r0)
                 (JsNum.sub hi lo)
      let s := if JsNum.div a pixelSize = 1 then ""
               else ratStr (JsNum.div a pixelSize) ++ "::DOUBLE * "
      let d := if lo.num = 0 then "" else " - " ++ ratStr lo ++ "::DOUBLE"
      some fun value =>
        .raw (fn ++ "(" ++ s ++ "(" ++ st.sqlApply value ++ d ++ "))::INTEGER")
          value.columns

/-! ## The query store

JavaScript `Query` / `SetOperation` objects form a mutable object graph:
`from` entries may reference subquery objects, `with` lists hold named CTE
queries, and each CTE clone carries a `cteFor` back-pointer to the query
that defined it.  The graph is embedded as a store mapping node ids to
nodes; object identity becomes id equality. -/

abbrev QId := Nat

/-- One entry of a `SELECT` list: `{ as, expr }`. -/
structure SelectItem where
  as : String
  expr : SqlExpr
deriving DecidableEq, Repr

/-- One entry of a `FROM` list: a named relation (`{ as, from: Ref }`), a
subquery object (`{ from: Query }`, no alias in the builder's
`isQuery` branch), or a raw SQL expression. -/
inductive FromItem where
  | rel (alias_ : Option String) (table : String)
  | sub (q : QId)
  | expr (e : SqlExpr)
deriving DecidableEq, Repr

/-- The record of a plain `Query` (`Query.js` constructor): the clause
lists the indexer exercises, plus the `cteFor` back-pointer.  The
`sample`, `having`, `window`, `qualify`, `limit` and `offset` clauses are
never touched by the indexer and are not modelled. -/
structure PlainQ where
  withs : List (String × QId)
  distinct : Bool
  sel : List SelectItem
  frm : List FromItem
  whr : List SqlExpr
  gby : List SqlExpr
  oby : List SqlExpr
  cteFor : Option QId
deriving DecidableEq, Repr

/-- A query node: a plain `Query` or a `SetOperation` (which keeps only
subquery ids, an `orderby` list and the `cteFor` pointer). -/
inductive QNode where
  | plain (p : PlainQ)
  | setop (op : String) (qs : List QId) (oby : List SqlExpr) (cteFor : Option QId)
deriving DecidableEq, Repr

/-- A heap of query nodes. -/
abbrev Store := List (QId × QNode)

/-- Read the node at an id. -/
def qlookup (σ : Store) (i : QId) : Option QNode :=
  σ.lookup i

/-- Replace the node at an id (no effect on a missing id; the JavaScript
object graph has no dangling references). -/
def qupdate (σ : Store) (i : QId) (n : QNode) : Store :=
  σ.map fun p => if p.1 = i then (i, n) else p

/-- CTE resolution: the object built by the `subqueries` getter's
`ctes.reduce` — later bindings of the same name win, so the *last* match
is taken. -/
def cteResolve (withs : List (String × QId)) (name : String) : Option QId :=
  withs.reverse.lookup name

/-- Overwrite a node's `cteFor` pointer (the mutation
`q.cteFor = cteFor` in `SetOperation.subqueries`). -/
def setCteFor (σ : Store) (i : QId) (v : Option QId) : Store :=
  match qlookup σ i with
  | none => σ
  | some (.plain p) => qupdate σ i (.plain { p with cteFor := v })
  | some (.setop op qs oby _) => qupdate σ i (.setop op qs oby v)

/-- Embedding of the `subqueries` getters (`Query.js` lines 398-412 and
547-551).  For a plain query: `from` entries that are query objects, plus
`from` references resolved against `(cteFor?.query || query).with`.  For a
set operation: its member queries, after propagating a non-null `cteFor`
to them (a store mutation, hence the returned store). -/
def subqueriesOf (σ : Store) (i : QId) : Store × List QId :=
  match qlookup σ i with
  | none => (σ, [])
  | some (.plain p) =>
    let env : List (String × QId) :=
      match p.cteFor with
      | none => p.withs
      | some d =>
        match qlookup σ d with
        | some (.plain pd) => pd.withs
        | _ => []
    let subs := p.frm.filterMap fun f =>
      match f with
      | .sub q => some q
      | .rel _ t => cteResolve env t
      | .expr _ => none
    (σ, subs)
  | some (.setop _ qs _ cteFor) =>
    match cteFor with
    | none => (σ, qs)
    | some d => (qs.foldl (fun σ1 q => setCteFor σ1 q (some d)) σ, qs)

/-- Merging new items into a `SELECT` list (`Query.js` lines 132-135):
existing entries whose alias is re-bound are dropped, then the new items
are appended. -/
def selectMerge (cur formItems : List SelectItem) : List SelectItem :=
  cur.filter (fun x => !(formItems.any fun y => y.as == x.as)) ++ formItems

/-- The select items built from a list of column-name strings
(`select(cols)` in the push-down: `{ as: e, expr: asColumn(e) }`). -/
def colSelectItems (cols : List String) : List SelectItem :=
  cols.map fun c => ⟨c, .column c⟩

/-- Strip one level of double quotes (`Query.js` `unquote`). -/
def unquote (s : String) : String :=
  if s.front = '"' ∧ s.back = '"' ∧ s.length ≥ 1 then (s.drop 1).dropRight 1 else s

/-- The select items built from an object argument
(`{ as: unquote(as), expr: asColumn(e[as]) }`; `asColumn` leaves an
expression value unchanged). -/
def objectSelectItems (obj : List (String × SqlExpr)) : List SelectItem :=
  obj.map fun kv => ⟨unquote kv.1, kv.2⟩

/-- Key-deduplicating insertion as JavaScript object literals and
`Object.fromEntries` perform it: a repeated key overwrites the value in
place, a fresh key is appended. -/
def jsFromEntries (l : List (String × SqlExpr)) : List (String × SqlExpr) :=
  l.foldl
    (fun acc p =>
      if acc.any (fun q => q.1 == p.1) then
        acc.map fun q => if q.1 == p.1 then (q.1, p.2) else q
      else acc ++ [p])
    []

/-- The object spread `{ ...a, ...b }`. -/
def jsSpread (a b : List (String × SqlExpr)) : List (String × SqlExpr) :=
  jsFromEntries (a ++ b)

/-! ## Subquery push-down -/

/-- One DFS of `subqueryPushdown` (`DataCubeIndexer.js` lines 324-335),
with the memo set and the worklist explicit.  A node is visited at most
once (the memo); at each first visit, if the node has a `select` method (a
plain query, not a set operation) and a non-empty `FROM` list, the columns
are merged into its `SELECT` list; then its subqueries are walked,
depth-first.  The JavaScript recursion terminates because the memo grows
inside a fixed object graph; here the same bound is supplied as structural
fuel, chosen large enough (see `pushdownFuel`) that it never runs out on
the runs the theorems evaluate. -/
def pushdownGo (cols : List String) :
    Nat → Store → List QId → List QId → Store × List QId
  | 0, σ, memo, _ => (σ, memo)
  | _ + 1, σ, memo, [] => (σ, memo)
  | fuel + 1, σ, memo, i :: rest =>
    if i ∈ memo then pushdownGo cols fuel σ memo rest
    else
      let memo1 := i :: memo
      match qlookup σ i with
      | none => pushdownGo cols fuel σ memo1 rest
      | some n =>
        let σ1 :=
          match n with
          | .plain p =>
            if p.frm.length ≠ 0 then
              qupdate σ i (.plain { p with sel := selectMerge p.sel (colSelectItems cols) })
            else σ
          | .setop .. => σ
        let out := subqueriesOf σ1 i
        pushdownGo cols fuel out.1 memo1 (out.2 ++ rest)

/-- Fuel that bounds the number of DFS steps: every step pops one worklist
entry, and entries are pushed at most once per store node, at most one per
`from`/member entry of that node. -/
def pushdownFuel (σ : Store) (stack : List QId) : Nat :=
  σ.foldl
    (fun acc p =>
      acc + 1 + (match p.2 with
                 | .plain q => q.frm.length
                 | .setop _ qs _ _ => qs.length))
    0
  + stack.length

/-- Embedding of `subqueryPushdown(query, cols)`: the DFS from the given
root with an empty memo.  The set of visited nodes (the final memo) is
returned alongside the store so the theorems can speak about the nodes the
walk reached. -/
def subqueryPushdown (σ : Store) (root : QId) (cols : List String) :
    Store × List QId :=
  pushdownGo cols (pushdownFuel σ [root]) σ [] [root]

/-! ## Query printing -/

/-- One printed `SELECT` item (`Query.js` lines 429-433):
`isColumnRefFor(expr, as) && !expr.table ? expr : expr AS "as"`; a plain
column reference never carries a table here. -/
def selectItemStr (it : SelectItem) : String :=
  if it.expr = .column it.as then it.expr.toStr
  else it.expr.toStr ++ " AS \"" ++ it.as ++ "\""

/-- Embedding of `toString` (`Query.js` lines 414-498 and 553-575), with
recursion into subqueries and CTEs bounded by fuel; the graphs the claims
evaluate are acyclic and shallow, so the fuel (one unit per reference
level, `qToString` supplies `|store| + 1`) never runs out there.  The
exact identifier quoting of the external `asRelation` printer is not
modelled: relation names print verbatim.  Unmodelled clauses (sample,
having, window, qualify, limit, offset) print nothing. -/
def qToStringGo : Nat → Store → QId → String
  | 0, _, _ => ""
  | fuel + 1, σ, i =>
    match qlookup σ i with
    | none => ""
    | some (.setop op qs oby _) =>
      let parts :=
        [String.intercalate (" " ++ op ++ " ") (qs.map (qToStringGo fuel σ))]
        ++ (if oby.length ≠ 0 then
              ["ORDER BY " ++ String.intercalate ", " (oby.map SqlExpr.toStr)]
            else [])
      String.intercalate " " parts
    | some (.plain p) =>
      let cte :=
        if p.withs.length ≠ 0 then
          ["WITH " ++ String.intercalate ", "
            (p.withs.map fun w => "\"" ++ w.1 ++ "\" AS (" ++ qToStringGo fuel σ w.2 ++ ")")]
        else []
      let sels :=
        ["SELECT" ++ (if p.distinct then " DISTINCT " else " ")
          ++ String.intercalate ", " (p.sel.map selectItemStr)]
      let froms :=
        if p.frm.length ≠ 0 then
          ["FROM " ++ String.intercalate ", "
            (p.frm.map fun f =>
              match f with
              | .rel a t =>
                match a with
                | none => t
                | some al => if al = t then t else t ++ " AS \"" ++ al ++ "\""
              | .sub q => "(" ++ qToStringGo fuel σ q ++ ")"
              | .expr e => e.toStr)]
        else []
      let wheres :=
        if p.whr.length ≠ 0 then
          let clauses :=
            String.intercalate " AND " ((p.whr.map SqlExpr.toStr).filter (fun s => s ≠ ""))
          if clauses ≠ "" then ["WHERE " ++ clauses] else []
        else []
      let gbys :=
        if p.gby.length ≠ 0 then
          ["GROUP BY " ++ String.intercalate ", " (p.gby.map SqlExpr.toStr)]
        else []
      let obys :=
        if p.oby.length ≠ 0 then
          ["ORDER BY " ++ String.intercalate ", " (p.oby.map SqlExpr.toStr)]
        else []
      String.intercalate " " (cte ++ sels ++ froms ++ wheres ++ gbys ++ obys)

/-- `query.toString()` at a store root. -/
def qToString (σ : Store) (i : QId) : String :=
  qToStringGo (σ.length + 1) σ i

/-! ## Clauses and the active-clause analyzer -/

/-- A child of a multi-interval clause predicate (`p.children[i]` exposes
the filtered `field`). -/
structure ClauseChild where
  field : SqlValue

/-- The predicate attached to a selection clause: its referenced base
`columns`, the filtered `field` (single interval), and the `children`
(multi interval). -/
structure ClausePred where
  columns : Option (List String)
  field : SqlValue
  children : List ClauseChild

/-- Clause metadata (`meta`): `{ type, scales, bin, pixelSize = 1 }`. -/
structure ClauseMeta where
  type : String
  scales : Option (List Scale)
  bin : Option String
  pixelSize : Option JsNum

/-- An active selection clause as `index` and `activeColumns` consume it. -/
structure Clause where
  source : JSVal
  meta : Option ClauseMeta
  predicate : Option ClausePred

/-- The argument the active-columns predicate generator is applied to: the
live clause predicate.  For a point clause this is the SQL predicate
itself (used verbatim); for interval clauses the analyzer reads `.range`
or `.children[i].range`; `null`/`undefined` is the cleared state. -/
inductive PredParam where
  | null
  | expr (e : SqlExpr)
  | range (r : List SqlValue)
  | children (cs : List (List SqlValue))

/-- The result of `activeColumns` (`DataCubeIndexer.js` lines 198-252):
clause source (null when not indexable), active column definitions, and
the predicate generator.  A predicate generator returns the list of
conjuncts handed to `Query.where` (`[]` for a falsy input, matching the
code's `: []` branches; `where` flattens and drops falsy entries). -/
structure ActiveCols where
  source : JSVal
  columns : Option (List (String × SqlExpr))
  predicate : Option (PredParam → List SqlExpr)

/-- The bin function at index `i` of the analyzer's `bins` array; all
entries are known to be `some` when this is used (the `bins.some(b => !b)`
bail-out fired otherwise).  An out-of-range read —  a JavaScript
`TypeError` — returns a dummy. -/
def binAt (bins : List (Option (SqlValue → SqlExpr))) (i : Nat) :
    SqlValue → SqlExpr :=
  match bins.get? i with
  | some (some f) => f
  | _ => fun _ => .raw "" []

/-- The point-clause predicate generator, `x => x`: the incoming predicate
is used verbatim; a falsy input contributes nothing to `where`. -/
def pointPredicateGen : PredParam → List SqlExpr
  | .expr e => [e]
  | _ => []

/-- The single-interval predicate generator,
`p => p ? isBetween('active0', p.range.map(bins[0])) : []`. -/
def singlePredicateGen (bins : List (Option (SqlValue → SqlExpr))) :
    PredParam → List SqlExpr
  | .range r => [isBetweenExpr "active0" (r.map (binAt bins 0))]
  | _ => []

/-- The multi-interval predicate generator,
`p => p ? and(p.children.map(({range}, i) => isBetween(`active${i}`, range.map(bins[i])))) : []`. -/
def multiPredicateGen (bins : List (Option (SqlValue → SqlExpr))) :
    PredParam → List SqlExpr
  | .children cs =>
      [andExpr (cs.mapIdx fun i r =>
        isBetweenExpr ("active" ++ toString i) (r.map (binAt bins i)))]
  | _ => []

/-- Embedding of `activeColumns(clause)` (`DataCubeIndexer.js` lines
207-252).  Missing metadata or predicate columns, an unsupported scale,
or an unknown clause type leave `columns` undefined and the returned
source null. -/
def activeColumns (clause : Clause) : ActiveCols :=
  match clause.meta, clause.predicate.bind (fun cp => cp.columns) with
  | none, _ => ⟨JSVal.null, none, none⟩
  | some _, none => ⟨JSVal.null, none, none⟩
  | some meta, some cols =>
    let pixelSize := meta.pixelSize.getD 1
    let cp :=
      if meta.type = "point" then
        (some (jsFromEntries (cols.map fun c => (c, SqlExpr.column c))),
         some pointPredicateGen)
      else if meta.type = "interval" ∧ meta.scales.isSome then
        let scales := meta.scales.getD []
        let bins := scales.map fun sc => binInterval sc pixelSize meta.bin
        if bins.any (fun b => b.isNone) then
          ((none : Option (List (String × SqlExpr))), (none : Option (PredParam → List SqlExpr)))
        else if bins.length = 1 then
          (some [("active0",
             binAt bins 0 ((clause.predicate.map (fun q => q.field)).getD (SqlValue.num 0)))],
           some (singlePredicateGen bins))
        else
          (some (jsFromEntries
             (((clause.predicate.map (fun q => q.children)).getD []).mapIdx fun i c =>
               ("active" ++ toString i, binAt bins i c.field))),
           some (multiPredicateGen bins))
      else (none, none)
    ⟨if cp.1.isSome then clause.source else JSVal.null, cp.1, cp.2⟩

/-! ## The cube planner -/

/-- Modelled from the spec: the result of `indexColumns(client)`
(`core/src/util/index-columns.js`, not among the given sources).  Spec §3:
`IndexColumns` is `{ dims: string[], aggr: SelectItem[], aux:
map<string,SqlExpr> }`, null when the client is not indexable. -/
structure IndexCols where
  dims : List String
  aggr : List SelectItem
  aux : List (String × SqlExpr)

/-- Metadata and query generator for a data cube index table
(`DataCubeInfo` class, lines 343-378).  The `result` promise is a run-time
handle with no further structure and is not modelled; the DDL the
coordinator receives is tracked by the indexer's execution trace
instead. -/
structure DataCubeInfo where
  id : String
  table : String
  create : String
  active : ActiveCols
  select : PlainQ
  skip : Bool

/-- Modelled from the spec: the builder's
`create(table, query, { temp: false })` DDL statement (spec §4.1, DDL
submission). -/
def createTableStmt (table query : String) : String :=
  "CREATE TABLE IF NOT EXISTS " ++ table ++ " AS " ++ query

/-- Update a plain node in place; a set operation has no `select`,
`from`, or `groupby` method, so the planner would throw in JavaScript
(never exercised) and the store is returned unchanged here. -/
def updPlain (σ : Store) (i : QId) (f : PlainQ → PlainQ) : Store :=
  match qlookup σ i with
  | some (.plain p) => qupdate σ i (.plain (f p))
  | _ => σ

/-- The `orderby()` getter at a node. -/
def getOby (σ : Store) (i : QId) : List SqlExpr :=
  match qlookup σ i with
  | some (.plain p) => p.oby
  | some (.setop _ _ oby _) => oby
  | none => []

/-- The `query.query.orderby = []` assignment at a node. -/
def clearOby (σ : Store) (i : QId) : Store :=
  match qlookup σ i with
  | some (.plain p) => qupdate σ i (.plain { p with oby := [] })
  | some (.setop op qs _ c) => qupdate σ i (.setop op qs [] c)
  | none => σ

/-- Embedding of `dataCubeInfo(clientQuery, active, indexCols, schema)`
(`DataCubeIndexer.js` lines 286-319).  The client query arrives as a
store and root id; the possibly mutated store is returned with the info,
as the JavaScript mutates the query graph in place.  Steps: merge the
active columns and aux columns into the root `SELECT` and group by the
active column names; push the active base columns down into the *first*
subquery (if any); capture and clear the root `ORDER BY`; print the DDL,
hash it into the table name; build the cube select template. -/
def dataCubeInfo (σ : Store) (root : QId) (active : ActiveCols)
    (indexCols : IndexCols) (schema : String) : DataCubeInfo × Store :=
  let columns := active.columns.getD []
  let σ1 := updPlain σ root fun p =>
    { p with sel := selectMerge p.sel (objectSelectItems (jsSpread columns indexCols.aux)) }
  let σ2 := updPlain σ1 root fun p =>
    { p with gby := p.gby ++ (columns.map Prod.fst).map SqlExpr.column }
  let sq := subqueriesOf σ2 root
  let σ3 :=
    match sq.2.head? with
    | some subq =>
      let cols := (columns.map Prod.snd).flatMap SqlExpr.columns
      (subqueryPushdown sq.1 subq cols).1
    | none => sq.1
  let order := getOby σ3 root
  let σ4 := clearOby σ3 root
  let create := qToString σ4 root
  let id := natToHex (fnv_hash create)
  let table := schema ++ ".cube_" ++ id
  let select : PlainQ :=
    { withs := [], distinct := false
      sel := (indexCols.dims.map fun d => ⟨d, .column d⟩) ++ indexCols.aggr
      frm := [.rel (some table) table]
      whr := []
      gby := indexCols.dims.map SqlExpr.column
      oby := order
      cteFor := none }
  ({ id := id, table := table, create := create, active := active,
     select := select, skip := false }, σ4)

/-- `Query.clone()` (`Query.js` lines 59-63) builds a fresh object around
a shallow copy of the clause record; `where` then *replaces* the copied
`where` array (`concat` allocates), so the original is never mutated.
With immutable values the clone is the identity. -/
def queryClone (q : PlainQ) : PlainQ := q

/-- `Query.where(...expr)` as the cube query uses it: the predicate
conjuncts are appended (`Query.js` lines 232-234; the incoming list is
already flat and every modelled expression is truthy). -/
def queryWhere (q : PlainQ) (es : List SqlExpr) : PlainQ :=
  { q with whr := q.whr ++ es }

/-- `this.active.predicate(predicate)`: apply the predicate generator.  A
`DataCubeInfo` built by the planner always carries a generator; the
`none` fallback (a JavaScript `TypeError`) returns no conjuncts. -/
def activePredicateApply (a : ActiveCols) (p : PredParam) : List SqlExpr :=
  match a.predicate with
  | some f => f p
  | none => []

/-- Embedding of `DataCubeInfo.query(predicate)` (lines 375-377):
`this.select.clone().where(this.active.predicate(predicate))`. -/
def DataCubeInfo.query (info : DataCubeInfo) (p : PredParam) : PlainQ :=
  queryWhere (queryClone info.select) (activePredicateApply info.active p)

/-! ## The indexer -/

/-- A cached index table entry: a built `DataCubeInfo`, or the `Skip`
sentinel (`{ skip: true, result: null }`).  The map stores
`Option IndexEntry`, with `none` the memoized null for a non-indexable
client. -/
inductive IndexEntry where
  | info (i : DataCubeInfo)
  | skip

/-- Modelled from the spec: the `MosaicClient` capability the indexer
consumes (spec §6): an identity (JavaScript object identity, as the
`indexes` map is keyed by the client object), the `indexColumns`
inspection result, and `query(filter) → Query` building a fresh query
graph. -/
structure Client where
  id : Nat
  indexCols : Option IndexCols
  query : Option SqlExpr → Store × QId

/-- Modelled from the spec: the `Selection` capability (spec §6):
`skip(client, clause)` and the composite
`remove(source).predicate(client)` used to build the cube's residual
filter. -/
structure Selection where
  skip : Nat → Clause → Bool
  removePredicate : JSVal → Nat → Option SqlExpr

/-- One coordinator `exec` call: the batch of statements submitted
together (a single-statement call is a one-element batch). -/
abbrev Batch := List String

/-- The mutable state of a `DataCubeIndexer` (constructor, lines 41-51):
the per-client cube cache (a JavaScript `Map`, insertion-ordered), the
cached active-clause analysis, the schema name, and the enabled flag. -/
structure IndexerState where
  indexes : List (Nat × Option IndexEntry)
  active : Option ActiveCols
  schema : String
  enabled : Bool

/-- `clear()` (lines 116-119): empty the cache, forget the analysis. -/
def clearState (s : IndexerState) : IndexerState :=
  { s with indexes := [], active := none }

/-- The `enabled` setter (lines 59-64): on a change to `false` the caches
are cleared first, then the flag is updated. -/
def setEnabled (s : IndexerState) (state : Bool) : IndexerState :=
  if s.enabled ≠ state then
    if state = false then { clearState s with enabled := state }
    else { s with enabled := state }
  else s

/-- The `schema` setter (lines 81-86): on a change the caches are cleared,
then the schema is updated. -/
def setSchema (s : IndexerState) (schema : String) : IndexerState :=
  if s.schema ≠ schema then { clearState s with schema := schema } else s

/-- `dropIndexTables()` (lines 105-108): clear local state, then submit
the single `DROP SCHEMA` statement through the coordinator. -/
def dropIndexTables (s : IndexerState) : IndexerState × List Batch :=
  (clearState s, [["DROP SCHEMA IF EXISTS \"" ++ s.schema ++ "\" CASCADE"]])

/-- `Map.set` on the client cache: replace in place or append. -/
def mapSet (m : List (Nat × Option IndexEntry)) (k : Nat) (v : Option IndexEntry) :
    List (Nat × Option IndexEntry) :=
  if m.any (fun p => p.1 == k) then
    m.map fun p => if p.1 == k then (k, v) else p
  else m ++ [(k, v)]

/-- The tail of `index` after the active-columns checks (lines 167-194):
return a cached entry if present; otherwise inspect the client, consult
`selection.skip`, and either memoize null, memoize `Skip`, or build the
cube info, submit its DDL batch, and memoize it. -/
def indexLookup (s : IndexerState) (a : ActiveCols) (client : Client)
    (sel : Selection) (cl : Clause) :
    Option IndexEntry × IndexerState × List Batch :=
  match s.indexes.lookup client.id with
  | some e => (e, s, [])
  | none =>
    match client.indexCols with
    | none => (none, { s with indexes := mapSet s.indexes client.id none }, [])
    | some ic =>
      if sel.skip client.id cl then
        (some .skip, { s with indexes := mapSet s.indexes client.id (some .skip) }, [])
      else
        let filter := sel.removePredicate cl.source client.id
        let q := client.query filter
        let built := dataCubeInfo q.1 q.2 a ic s.schema
        let info := built.1
        (some (.info info),
         { s with indexes := mapSet s.indexes client.id (some (.info info)) },
         [["CREATE SCHEMA IF NOT EXISTS " ++ s.schema,
           createTableStmt info.table info.create]])

/-- The analysis step of `index` (lines 158-165): with no cached active
columns, analyze the active clause, cache the result, and return null for
a non-indexable clause (the analysis, with its null source, stays
cached). -/
def indexAnalyze (s : IndexerState) (client : Client) (sel : Selection)
    (cl : Clause) : Option IndexEntry × IndexerState × List Batch :=
  if (activeColumns cl).source = JSVal.null then
    (none, { s with active := some (activeColumns cl) }, [])
  else
    indexLookup { s with active := some (activeColumns cl) }
      (activeColumns cl) client sel cl

/-- Embedding of `index(client, selection, activeClause)` (lines
135-195).  Returns the entry handed back to the caller, the successor
state, and the list of coordinator `exec` batches the call submitted.
The branches follow the source: a cached analysis whose source differs
from the clause's triggers `clear()` and, the cache now empty, a fresh
analysis; the middle branch is line 152's `this.active?.source === null`
check, which can only fire when no clear happened (after a clear,
`this.active` is null and the optional chaining yields undefined). -/
def indexOp (s : IndexerState) (client : Client) (sel : Selection)
    (cl : Clause) : Option IndexEntry × IndexerState × List Batch :=
  if s.enabled = false then (none, s, [])
  else if cl.source.truthy = false then (none, s, [])
  else
    match s.active with
    | some a =>
      if a.source ≠ cl.source then indexAnalyze (clearState s) client sel cl
      else if a.source = JSVal.null then (none, s, [])
      else indexLookup s a client sel cl
    | none => indexAnalyze s client sel cl

/-- The states a `DataCubeIndexer` can reach: freshly constructed (any
schema and enabled option), or the successor of a reachable state under
any public operation. -/
inductive Reachable : IndexerState → Prop where
  | init (schema : String) (enabled : Bool) :
      Reachable ⟨[], none, schema, enabled⟩
  | enabledSet {s} (b : Bool) : Reachable s → Reachable (setEnabled s b)
  | schemaSet {s} (sch : String) : Reachable s → Reachable (setSchema s sch)
  | cleared {s} : Reachable s → Reachable (clearState s)
  | dropped {s} : Reachable s → Reachable (dropIndexTables s).1
  | indexed {s} (client : Client) (sel : Selection) (cl : Clause) :
      Reachable s → Reachable (indexOp s client sel cl).2.1

/-! ## Claim-side definitions and concrete fixtures -/

/-- The bin expression shape exactly as the spec states it (§4.5 step 5):
`<fn>(a/pixelSize::DOUBLE * (sqlApply(value) - lo::DOUBLE))::INTEGER`,
with the multiplicative factor omitted exactly when it equals 1 and the
`- lo` term omitted exactly when `lo = 0`.  Written from the spec's words,
to be compared against the source-derived `binInterval`. -/
def specBinExpr (fn : String) (factor lo : JsNum) (applied : String)
    (cols : List String) : SqlExpr :=
  .raw (fn ++ "("
      ++ (if factor = 1 then "" else ratStr factor ++ "::DOUBLE * ")
      ++ "(" ++ applied
      ++ (if lo.num = 0 then "" else " - " ++ ratStr lo ++ "::DOUBLE")
      ++ "))::INTEGER") cols

/-- The claim's `lo`: the scale transform applied to the domain minimum. -/
def specBinLo (scale : Scale) (ap : JsNum → JsNum) : JsNum :=
  match scale.domain with
  | [] => 0
  | d0 :: ds => ap (ds.foldl JsNum.jmin d0)

/-- The claim's `a`: 1 for an identity scale, otherwise
`|range[1]-range[0]| / (hi - lo)`. -/
def specBinFactor (scale : Scale) (ap : JsNum → JsNum) : JsNum :=
  match scale.domain with
  | [] => 0
  | d0 :: ds =>
    if scale.type = "identity" then 1
    else
      JsNum.div
        (if JsNum.blt (JsNum.sub ((scale.range.get? 1).getD 0)
              ((scale.range.get? 0).getD 0)) 0 then
          JsNum.sub ((scale.range.get? 0).getD 0) ((scale.range.get? 1).getD 0)
         else
          JsNum.sub ((scale.range.get? 1).getD 0) ((scale.range.get? 0).getD 0))
        (JsNum.sub (ap (ds.foldl JsNum.jmax d0)) (ap (ds.foldl JsNum.jmin d0)))

/-- The claim's concrete linear scale: domain `[0,100]`, range `[0,500]`;
a linear scale's `apply` is the identity on domain values and its
`sqlApply` renders the value's SQL text. -/
def linearScaleEx : Scale :=
  { type := "linear", domain := [0, 100], range := [0, 500],
    apply := some id,
    sqlApply := fun v => match v with | .num q => ratStr q | .expr e => e.toStr }

/-- A client query with two inline subqueries in its `FROM` list:
node 0 is `SELECT SUM(v) AS "total" FROM (node 1), (node 2)`. -/
def c1Store : Store :=
  [(0, .plain { withs := [], distinct := false,
                sel := [⟨"total", .raw "SUM(v)" ["v"]⟩],
                frm := [.sub 1, .sub 2],
                whr := [], gby := [], oby := [], cteFor := none }),
   (1, .plain { withs := [], distinct := false,
                sel := [⟨"v", .column "v"⟩],
                frm := [.rel none "t1"],
                whr := [], gby := [], oby := [], cteFor := none }),
   (2, .plain { withs := [], distinct := false,
                sel := [⟨"v", .column "v"⟩],
                frm := [.rel none "t2"],
                whr := [], gby := [], oby := [], cteFor := none })]

/-- Node 2 of `c1Store` as it still reads after planning: its `SELECT`
list was never extended. -/
def c1Node2 : PlainQ :=
  { withs := [], distinct := false,
    sel := [⟨"v", .column "v"⟩],
    frm := [.rel none "t2"],
    whr := [], gby := [], oby := [], cteFor := none }

/-- Node 1 of `c1Store` after the push-down walk from it with `["c"]`. -/
def c1Node1Pushed : PlainQ :=
  { withs := [], distinct := false,
    sel := [⟨"v", .column "v"⟩, ⟨"c", .column "c"⟩],
    frm := [.rel none "t1"],
    whr := [], gby := [], oby := [], cteFor := none }

/-- A point-type active clause over base column `c` with source `"S"`. -/
def exPointClause : Clause :=
  { source := .str "S",
    meta := some { type := "point", scales := none, bin := none, pixelSize := none },
    predicate := some { columns := some ["c"], field := .expr (.column "c"), children := [] } }

/-- A clause whose source is the falsy, non-null number `0`. -/
def exFalsyClause : Clause :=
  { source := .num 0, meta := none, predicate := none }

/-- A one-node client query: `SELECT "d" FROM t GROUP BY "d"`. -/
def exClientStore : Store :=
  [(0, .plain { withs := [], distinct := false,
                sel := [⟨"d", .column "d"⟩],
                frm := [.rel none "t"],
                whr := [], gby := [.column "d"], oby := [], cteFor := none })]

/-- Concrete index columns: one dimension, one aggregate, no aux. -/
def exIndexCols : IndexCols :=
  { dims := ["d"], aggr := [⟨"cnt", .raw "COUNT(*)" []⟩], aux := [] }

/-- A concrete indexable client. -/
def exClient : Client :=
  { id := 7, indexCols := some exIndexCols, query := fun _ => (exClientStore, 0) }

/-- A concrete selection: never skips, no residual predicate. -/
def exSelection : Selection :=
  { skip := fun _ _ => false, removePredicate := fun _ _ => none }

/-- An enabled indexer state whose active analysis caches
`exPointClause`. -/
def exState : IndexerState :=
  { indexes := [], active := some (activeColumns exPointClause),
    schema := "mosaic", enabled := true }

/-- A point clause like `exPointClause` but with source `"T"`. -/
def exPointClauseT : Clause :=
  { source := .str "T",
    meta := some { type := "point", scales := none, bin := none, pixelSize := none },
    predicate := some { columns := some ["c"], field := .expr (.column "c"), children := [] } }

/-- An enabled indexer state caching the analysis of `exPointClauseT`. -/
def exStateT : IndexerState :=
  { indexes := [], active := some (activeColumns exPointClauseT),
    schema := "mosaic", enabled := true }

/-- A freshly constructed enabled indexer state. -/
def exInitState : IndexerState :=
  { indexes := [], active := none, schema := "mosaic", enabled := true }

/-- `exClientStore` extended with an unreferenced extra node: a distinct
planner input whose DDL text coincides with `exClientStore`'s. -/
def exStoreB : Store :=
  exClientStore ++ [(99, .setop "UNION" [] [] none)]

/-! ## Store lemmas -/

theorem qlookup_cons (k : QId) (v : QNode) (tl : Store) (j : QId) :
    qlookup ((k, v) :: tl) j = if j = k then some v else qlookup tl j := by
  by_cases h : j = k
  · simp [qlookup, List.lookup, h]
  · have hb : (j == k) = false := beq_false_of_ne h
    simp [qlookup, List.lookup, hb, h]

theorem qlookup_qupdate_ne (σ : Store) (i : QId) (n : QNode) {j : QId}
    (h : j ≠ i) : qlookup (qupdate σ i n) j = qlookup σ j := by
  induction σ with
  | nil => rfl
  | cons hd tl ih =>
    obtain ⟨k, v⟩ := hd
    show qlookup ((if k = i then (i, n) else (k, v)) :: qupdate tl i n) j = _
    by_cases hk : k = i
    · rw [if_pos hk, qlookup_cons, qlookup_cons, if_neg h,
        if_neg (fun e => h (e.trans hk)), ih]
    · rw [if_neg hk, qlookup_cons, qlookup_cons]
      by_cases hj : j = k
      · rw [if_pos hj, if_pos hj]
      · rw [if_neg hj, if_neg hj, ih]

theorem qlookup_qupdate_self (σ : Store) (i : QId) (n : QNode) {m : QNode}
    (h : qlookup σ i = some m) : qlookup (qupdate σ i n) i = some n := by
  induction σ with
  | nil => simp [qlookup, List.lookup] at h
  | cons hd tl ih =>
    obtain ⟨k, v⟩ := hd
    show qlookup ((if k = i then (i, n) else (k, v)) :: qupdate tl i n) i = some n
    by_cases hk : k = i
    · rw [if_pos hk, qlookup_cons, if_pos rfl]
    · rw [if_neg hk, qlookup_cons, if_neg (fun e => hk e.symm)]
      rw [qlookup_cons, if_neg (fun e => hk e.symm)] at h
      exact ih h

/-- Store evolution that can only rewrite `cteFor` pointers: whatever is a
plain node afterwards was a plain node with the same `SELECT` and `FROM`
lists before. -/
def SameSF (σ σ' : Store) : Prop :=
  ∀ i p, qlookup σ' i = some (.plain p) →
    ∃ p0, qlookup σ i = some (.plain p0) ∧ p0.sel = p.sel ∧ p0.frm = p.frm

theorem SameSF.refl (σ : Store) : SameSF σ σ :=
  fun _ p h => ⟨p, h, rfl, rfl⟩

theorem SameSF.trans {σ1 σ2 σ3 : Store} (h12 : SameSF σ1 σ2)
    (h23 : SameSF σ2 σ3) : SameSF σ1 σ3 := by
  intro i p h
  obtain ⟨p1, hl, hs, hf⟩ := h23 i p h
  obtain ⟨p0, hl0, hs0, hf0⟩ := h12 i p1 hl
  exact ⟨p0, hl0, hs0.trans hs, hf0.trans hf⟩

theorem sameSF_setCteFor (σ : Store) (j : QId) (v : Option QId) :
    SameSF σ (setCteFor σ j v) := by
  intro i p h
  unfold setCteFor at h
  cases hq : qlookup σ j with
  | none => rw [hq] at h; exact ⟨p, h, rfl, rfl⟩
  | some n =>
    rw [hq] at h
    by_cases hij : i = j
    · subst hij
      cases n with
      | plain p0 =>
        rw [qlookup_qupdate_self σ i _ hq] at h
        cases h
        exact ⟨p0, hq, rfl, rfl⟩
      | setop op qs oby c =>
        rw [qlookup_qupdate_self σ i _ hq] at h
        cases h
    · cases n with
      | plain p0 => rw [qlookup_qupdate_ne σ j _ hij] at h; exact ⟨p, h, rfl, rfl⟩
      | setop op qs oby c => rw [qlookup_qupdate_ne σ j _ hij] at h; exact ⟨p, h, rfl, rfl⟩

theorem sameSF_setCteFor_foldl (qs : List QId) (v : Option QId) :
    ∀ σ : Store, SameSF σ (qs.foldl (fun σ1 q => setCteFor σ1 q v) σ) := by
  induction qs with
  | nil => intro σ; exact SameSF.refl σ
  | cons q rest ih =>
    intro σ
    exact (sameSF_setCteFor σ q v).trans (ih (setCteFor σ q v))

theorem sameSF_subqueriesOf (σ : Store) (i : QId) :
    SameSF σ (subqueriesOf σ i).1 := by
  unfold subqueriesOf
  cases hq : qlookup σ i with
  | none => exact SameSF.refl σ
  | some n =>
    cases n with
    | plain p => exact SameSF.refl σ
    | setop op qs oby c =>
      cases c with
      | none => exact SameSF.refl σ
      | some d => exact sameSF_setCteFor_foldl qs (some d) σ

/-! ## Push-down soundness -/

/-- A node is patched: if it is a plain query with a non-empty `FROM`
list, every pushed column name appears among its `SELECT` aliases. -/
def PushedDown (cols : List String) (σ : Store) (i : QId) : Prop :=
  ∀ p, qlookup σ i = some (.plain p) → p.frm ≠ [] →
    ∀ c ∈ cols, c ∈ p.sel.map SelectItem.as

theorem pushedDown_of_sameSF {σ σ' : Store} (h : SameSF σ σ')
    {cols : List String} {i : QId} (hp : PushedDown cols σ i) :
    PushedDown cols σ' i := by
  intro p hl hf c hc
  obtain ⟨p0, hl0, hs, hfr⟩ := h i p hl
  have := hp p0 hl0 (by rw [hfr]; exact hf) c hc
  rwa [hs] at this

theorem selectMerge_cols_mem (sel : List SelectItem) (cols : List String)
    {c : String} (hc : c ∈ cols) :
    c ∈ (selectMerge sel (colSelectItems cols)).map SelectItem.as := by
  unfold selectMerge colSelectItems
  rw [List.map_append]
  apply List.mem_append_right
  simp only [List.map_map]
  simpa [Function.comp] using hc

theorem pushdownGo_sound (cols : List String) :
    ∀ (fuel : Nat) (σ : Store) (memo stack : List QId),
      (∀ i ∈ memo, PushedDown cols σ i) →
      ∀ i ∈ (pushdownGo cols fuel σ memo stack).2,
        PushedDown cols (pushdownGo cols fuel σ memo stack).1 i := by
  intro fuel
  induction fuel with
  | zero => intro σ memo stack hinv i hi; simpa [pushdownGo] using hinv i (by simpa [pushdownGo] using hi)
  | succ f ih =>
    intro σ memo stack hinv i hi
    cases stack with
    | nil => simpa [pushdownGo] using hinv i (by simpa [pushdownGo] using hi)
    | cons j rest =>
      by_cases hj : j ∈ memo
      · rw [pushdownGo, if_pos hj] at hi ⊢
        exact ih σ memo rest hinv i hi
      · rw [pushdownGo, if_neg hj] at hi ⊢
        cases hq : qlookup σ j with
        | none =>
          simp only [hq] at hi ⊢
          refine ih σ (j :: memo) rest ?_ i hi
          intro k hk
          rcases List.mem_cons.mp hk with h | h
          · subst h; intro p hl; rw [hq] at hl; cases hl
          · exact hinv k h
        | some n =>
          simp only [hq] at hi ⊢
          cases n with
          | plain p =>
            by_cases hf : p.frm.length ≠ 0
            · simp only [if_pos hf] at hi ⊢
              set σ1 := qupdate σ j (.plain
                { p with sel := selectMerge p.sel (colSelectItems cols) }) with hσ1
              refine ih (subqueriesOf σ1 j).1 (j :: memo) _ ?_ i hi
              intro k hk
              have hsf := sameSF_subqueriesOf σ1 j
              rcases List.mem_cons.mp hk with h | h
              · rw [h]
                refine pushedDown_of_sameSF hsf ?_
                intro p' hl _ c hc
                rw [hσ1, qlookup_qupdate_self σ j _ hq] at hl
                cases hl
                exact selectMerge_cols_mem p.sel cols hc
              · refine pushedDown_of_sameSF hsf ?_
                intro p' hl hfr c hc
                rw [hσ1, qlookup_qupdate_ne σ j _ (fun e => hj (e ▸ h))] at hl
                exact hinv k h p' hl hfr c hc
            · simp only [if_neg hf] at hi ⊢
              refine ih (subqueriesOf σ j).1 (j :: memo) _ ?_ i hi
              intro k hk
              have hsf := sameSF_subqueriesOf σ j
              rcases List.mem_cons.mp hk with h | h
              · subst h
                refine pushedDown_of_sameSF hsf ?_
                intro p' hl hfr _ _
                rw [hq] at hl
                cases hl
                exact absurd (by simpa using hfr) hf
              · exact pushedDown_of_sameSF hsf (hinv k h)
          | setop op qs oby c =>
            refine ih (subqueriesOf σ j).1 (j :: memo) _ ?_ i hi
            intro k hk
            have hsf := sameSF_subqueriesOf σ j
            rcases List.mem_cons.mp hk with h | h
            · subst h
              refine pushedDown_of_sameSF hsf ?_
              intro p' hl _ _ _
              rw [hq] at hl
              cases hl
            · exact pushedDown_of_sameSF hsf (hinv k h)

theorem pushdownGo_memo_mono (cols : List String) :
    ∀ (fuel : Nat) (σ : Store) (memo stack : List QId),
      memo ⊆ (pushdownGo cols fuel σ memo stack).2 := by
  intro fuel
  induction fuel with
  | zero => intro σ memo stack; simp [pushdownGo]
  | succ f ih =>
    intro σ memo stack
    cases stack with
    | nil => simp [pushdownGo]
    | cons j rest =>
      by_cases hj : j ∈ memo
      · rw [pushdownGo, if_pos hj]; exact ih σ memo rest
      · rw [pushdownGo, if_neg hj]
        cases hq : qlookup σ j with
        | none =>
          simp only [hq]
          exact fun k hk => ih σ (j :: memo) rest (List.mem_cons_of_mem j hk)
        | some n =>
          simp only [hq]
          cases n with
          | plain p =>
            by_cases hf : p.frm.length ≠ 0
            · simp only [if_pos hf]
              exact fun k hk => ih _ (j :: memo) _ (List.mem_cons_of_mem j hk)
            · simp only [if_neg hf]
              exact fun k hk => ih _ (j :: memo) _ (List.mem_cons_of_mem j hk)
          | setop op qs oby c =>
            exact fun k hk => ih _ (j :: memo) _ (List.mem_cons_of_mem j hk)

theorem subqueryPushdown_root_mem (σ : Store) (root : QId) (cols : List String) :
    root ∈ (subqueryPushdown σ root cols).2 := by
  unfold subqueryPushdown
  have hfuel : pushdownFuel σ [root] =
      (σ.foldl (fun acc p => acc + 1 + (match p.2 with
        | .plain q => q.frm.length
        | .setop _ qs _ _ => qs.length)) 0) + 1 := rfl
  rw [hfuel, pushdownGo]
  simp only [List.not_mem_nil, if_false]
  cases hq : qlookup σ root with
  | none =>
    exact pushdownGo_memo_mono cols _ σ [root] [] (List.mem_singleton.mpr rfl)
  | some n =>
    cases n with
    | plain p =>
      by_cases hf : p.frm.length ≠ 0
      · simp only [if_pos hf]
        exact pushdownGo_memo_mono cols _ _ [root] _ (List.mem_cons_self root [])
      · simp only [if_neg hf]
        exact pushdownGo_memo_mono cols _ _ [root] _ (List.mem_cons_self root [])
    | setop op qs oby c =>
      exact pushdownGo_memo_mono cols _ _ [root] _ (List.mem_cons_self root [])

/-! ## Cache map lemmas -/

theorem lookup_cons_nat {β : Type _} (k : Nat) (b : β) (tl : List (Nat × β))
    (j : Nat) :
    List.lookup j ((k, b) :: tl) = if j = k then some b else List.lookup j tl := by
  by_cases h : j = k
  · simp [List.lookup, h]
  · have hb : (j == k) = false := beq_false_of_ne h
    simp [List.lookup, hb, h]

theorem lookup_mapSet_self (m : List (Nat × Option IndexEntry)) (k : Nat)
    (v : Option IndexEntry) : (mapSet m k v).lookup k = some v := by
  induction m with
  | nil =>
    rw [mapSet, if_neg (by simp), List.nil_append, lookup_cons_nat, if_pos rfl]
  | cons hd tl ih =>
    obtain ⟨k0, v0⟩ := hd
    by_cases hk : k0 = k
    · rw [mapSet, if_pos (by simp [hk])]
      simp only [List.map_cons]
      rw [show ((if ((k0, v0) : Nat × Option IndexEntry).1 == k then (k, v) else (k0, v0))
            = (k, v)) from by simp [hk]]
      rw [lookup_cons_nat, if_pos rfl]
    · have hke : ((k0 : Nat) == k) = false := beq_false_of_ne hk
      cases htl : tl.any fun p => p.1 == k with
      | false =>
        rw [mapSet, if_neg (by simp [hke, htl])]
        rw [List.cons_append, lookup_cons_nat, if_neg (fun e => hk e.symm)]
        rw [mapSet, if_neg (by simp [htl])] at ih
        exact ih
      | true =>
        rw [mapSet, if_pos (by simp [htl])]
        simp only [List.map_cons]
        rw [show ((if ((k0, v0) : Nat × Option IndexEntry).1 == k then (k, v) else (k0, v0))
              = (k0, v0)) from by simp [hke]]
        rw [lookup_cons_nat, if_neg (fun e => hk e.symm)]
        rw [mapSet, if_pos (by simp [htl])] at ih
        exact ih

theorem mem_mapSet {m : List (Nat × Option IndexEntry)} {k : Nat}
    {v : Option IndexEntry} {x : Nat × Option IndexEntry}
    (hx : x ∈ mapSet m k v) : x ∈ m ∨ x = (k, v) := by
  rw [mapSet] at hx
  by_cases hc : m.any (fun p => p.1 == k) = true
  · rw [if_pos hc] at hx
    obtain ⟨p, hp, he⟩ := List.mem_map.mp hx
    by_cases h : (p.1 == k) = true
    · right; rw [if_pos h] at he; exact he.symm
    · left; rw [if_neg h] at he; exact he ▸ hp
  · rw [if_neg hc] at hx
    rcases List.mem_append.mp hx with h | h
    · left; exact h
    · right; simpa using h

/-! ## Analyzer and indexer lemmas -/

theorem ite_null_or {C : Prop} [Decidable C] (x : JSVal) :
    (if C then x else JSVal.null) = JSVal.null ∨
    (if C then x else JSVal.null) = x := by
  by_cases h : C
  · right; rw [if_pos h]
  · left; rw [if_neg h]

theorem activeColumns_source (cl : Clause) :
    (activeColumns cl).source = JSVal.null ∨
    (activeColumns cl).source = cl.source := by
  cases hm : cl.meta with
  | none => left; simp [activeColumns, hm]
  | some m =>
    cases hp : cl.predicate.bind (fun cp => cp.columns) with
    | none => left; simp [activeColumns, hm, hp]
    | some cols =>
      simp only [activeColumns, hm, hp]
      exact ite_null_or cl.source

theorem indexLookup_state (s : IndexerState) (a : ActiveCols) (client : Client)
    (sel : Selection) (cl : Clause) :
    (indexLookup s a client sel cl).2.1.indexes.lookup client.id
        = some (indexLookup s a client sel cl).1 ∧
    (indexLookup s a client sel cl).2.1.active = s.active ∧
    (indexLookup s a client sel cl).2.1.enabled = s.enabled ∧
    (indexLookup s a client sel cl).2.1.schema = s.schema := by
  unfold indexLookup
  cases hl : s.indexes.lookup client.id with
  | some e => simp [hl]
  | none =>
    simp only [hl]
    cases hic : client.indexCols with
    | none => simp [lookup_mapSet_self]
    | some ic =>
      by_cases hs : sel.skip client.id cl
      · simp [hs, lookup_mapSet_self]
      · simp [hs, lookup_mapSet_self]

/-! ## Indexer state lemmas -/

theorem indexOp_disabled {s : IndexerState} (client : Client) (sel : Selection)
    (cl : Clause) (h : s.enabled = false) :
    indexOp s client sel cl = (none, s, []) := by
  unfold indexOp
  rw [if_pos h]

theorem indexAnalyze_fields (s : IndexerState) (client : Client)
    (sel : Selection) (cl : Clause) :
    (indexAnalyze s client sel cl).2.1.enabled = s.enabled ∧
    (indexAnalyze s client sel cl).2.1.schema = s.schema := by
  unfold indexAnalyze
  by_cases hn : (activeColumns cl).source = JSVal.null
  · rw [if_pos hn]; exact ⟨rfl, rfl⟩
  · rw [if_neg hn]
    obtain ⟨_, _, he, hs⟩ := indexLookup_state
      { s with active := some (activeColumns cl) } (activeColumns cl) client sel cl
    exact ⟨he, hs⟩

theorem indexOp_fields (s : IndexerState) (client : Client) (sel : Selection)
    (cl : Clause) :
    (indexOp s client sel cl).2.1.enabled = s.enabled ∧
    (indexOp s client sel cl).2.1.schema = s.schema := by
  unfold indexOp
  split
  next h1 => exact ⟨rfl, rfl⟩
  next h1 =>
    split
    next h2 => exact ⟨rfl, rfl⟩
    next h2 =>
      split
      next a ha =>
        split
        next hd => exact indexAnalyze_fields (clearState s) client sel cl
        next hd =>
          split
          next hn => exact ⟨rfl, rfl⟩
          next hn =>
            obtain ⟨_, _, he, hs⟩ := indexLookup_state s a client sel cl
            exact ⟨he, hs⟩
      next ha => exact indexAnalyze_fields s client sel cl

theorem disabled_invariant {s : IndexerState} (h : Reachable s) :
    s.enabled = false → s.active = none ∧ s.indexes = [] := by
  induction h with
  | init schema enabled => intro _; exact ⟨rfl, rfl⟩
  | enabledSet b hr ih =>
    rename_i s0
    intro hd
    unfold setEnabled at hd ⊢
    by_cases hc : s0.enabled ≠ b
    · rw [if_pos hc] at hd ⊢
      by_cases hb : b = false
      · rw [if_pos hb] at hd ⊢; exact ⟨rfl, rfl⟩
      · rw [if_neg hb] at hd ⊢; exact absurd hd hb
    · rw [if_neg hc] at hd ⊢; exact ih hd
  | schemaSet sch hr ih =>
    rename_i s0
    intro hd
    unfold setSchema at hd ⊢
    by_cases hc : s0.schema ≠ sch
    · rw [if_pos hc] at hd ⊢; exact ⟨rfl, rfl⟩
    · rw [if_neg hc] at hd ⊢; exact ih hd
  | cleared hr ih => intro _; exact ⟨rfl, rfl⟩
  | dropped hr ih => intro _; exact ⟨rfl, rfl⟩
  | indexed client sel cl hr ih =>
    rename_i s0
    intro hd
    rw [(indexOp_fields s0 client sel cl).1] at hd
    rw [indexOp_disabled client sel cl hd]
    exact ih hd

theorem indexLookup_cached {st : IndexerState} {a : ActiveCols}
    {client : Client} {sel : Selection} {cl : Clause} {r : Option IndexEntry}
    (h : st.indexes.lookup client.id = some r) :
    indexLookup st a client sel cl = (r, st, []) := by
  unfold indexLookup
  rw [h]

theorem indexAnalyze_active (s : IndexerState) (client : Client)
    (sel : Selection) (cl : Clause) :
    (indexAnalyze s client sel cl).2.1.active = some (activeColumns cl) := by
  unfold indexAnalyze
  split
  next => rfl
  next =>
    exact ((indexLookup_state { s with active := some (activeColumns cl) }
      (activeColumns cl) client sel cl).2.1).trans rfl

theorem indexOp_active_or (s : IndexerState) (client : Client) (sel : Selection)
    (cl : Clause) :
    (indexOp s client sel cl).2.1 = s ∨
    (∃ a, (indexOp s client sel cl).2.1.active = some a) := by
  unfold indexOp
  split
  next => left; rfl
  next =>
    split
    next => left; rfl
    next =>
      split
      next a ha =>
        split
        next hd =>
          right; exact ⟨_, indexAnalyze_active (clearState s) client sel cl⟩
        next hd =>
          split
          next hn => left; rfl
          next hn =>
            right
            exact ⟨a, ((indexLookup_state s a client sel cl).2.1).trans ha⟩
      next ha => right; exact ⟨_, indexAnalyze_active s client sel cl⟩

theorem nonempty_active {s : IndexerState} (h : Reachable s) :
    s.indexes ≠ [] → ∃ a, s.active = some a := by
  induction h with
  | init schema enabled => intro hne; exact absurd rfl hne
  | enabledSet b hr ih =>
    rename_i s0
    intro hne
    unfold setEnabled at hne ⊢
    by_cases hc : s0.enabled ≠ b
    · rw [if_pos hc] at hne ⊢
      by_cases hb : b = false
      · rw [if_pos hb] at hne ⊢; exact absurd rfl hne
      · rw [if_neg hb] at hne ⊢; exact ih hne
    · rw [if_neg hc] at hne ⊢; exact ih hne
  | schemaSet sch hr ih =>
    rename_i s0
    intro hne
    unfold setSchema at hne ⊢
    by_cases hc : s0.schema ≠ sch
    · rw [if_pos hc] at hne ⊢; exact absurd rfl hne
    · rw [if_neg hc] at hne ⊢; exact ih hne
  | cleared hr ih => intro hne; exact absurd rfl hne
  | dropped hr ih => intro hne; exact absurd rfl hne
  | indexed client sel cl hr ih =>
    rename_i s0
    intro hne
    rcases indexOp_active_or s0 client sel cl with he | ⟨a, hact⟩
    · rw [he] at hne ⊢; exact ih hne
    · exact ⟨a, hact⟩

theorem indexLookup_mem {st : IndexerState} {a : ActiveCols} {client : Client}
    {sel : Selection} {cl : Clause} {x : Nat × Option IndexEntry}
    (h : x ∈ (indexLookup st a client sel cl).2.1.indexes) :
    x ∈ st.indexes ∨ x.1 = client.id := by
  unfold indexLookup at h
  split at h
  next e heq => left; exact h
  next heq =>
    split at h
    next hic =>
      rcases mem_mapSet h with hm | he
      · left; exact hm
      · right; rw [he]
    next ic hic =>
      split at h
      next hs =>
        rcases mem_mapSet h with hm | he
        · left; exact hm
        · right; rw [he]
      next hs =>
        rcases mem_mapSet h with hm | he
        · left; exact hm
        · right; rw [he]

theorem indexAnalyze_mem_src {s : IndexerState} {client : Client}
    {sel : Selection} {cl : Clause} {x : Nat × Option IndexEntry}
    (h : x ∈ (indexAnalyze s client sel cl).2.1.indexes) :
    x ∈ s.indexes ∨ (x.1 = client.id ∧
      (indexAnalyze s client sel cl).2.1.active = some (activeColumns cl) ∧
      (activeColumns cl).source = cl.source) := by
  have hact := indexAnalyze_active s client sel cl
  unfold indexAnalyze at h
  by_cases hn : (activeColumns cl).source = JSVal.null
  · rw [if_pos hn] at h
    left; exact h
  · rw [if_neg hn] at h
    rcases indexLookup_mem h with hm | hid
    · left; exact hm
    · right
      refine ⟨hid, hact, ?_⟩
      rcases activeColumns_source cl with h0 | h0
      · exact absurd h0 hn
      · exact h0

theorem indexOp_populate (s : IndexerState) (client : Client) (sel : Selection)
    (cl : Clause) :
    ∀ x ∈ (indexOp s client sel cl).2.1.indexes,
      x ∈ s.indexes ∨ (x.1 = client.id ∧
        ∃ a, (indexOp s client sel cl).2.1.active = some a ∧
          a.source = cl.source) := by
  unfold indexOp
  split
  next h1 => intro x hx; left; exact hx
  next h1 =>
    split
    next h2 => intro x hx; left; exact hx
    next h2 =>
      split
      next a ha =>
        split
        next hd =>
          intro x hx
          rcases indexAnalyze_mem_src hx with hm | ⟨hid, hact, hsrc⟩
          · exact absurd hm (List.not_mem_nil x)
          · right; exact ⟨hid, activeColumns cl, hact, hsrc⟩
        next hd =>
          split
          next hn => intro x hx; left; exact hx
          next hn =>
            intro x hx
            rcases indexLookup_mem hx with hm | hid
            · left; exact hm
            · right
              exact ⟨hid, a,
                ((indexLookup_state s a client sel cl).2.1).trans ha,
                not_not.mp hd⟩
      next ha =>
        intro x hx
        rcases indexAnalyze_mem_src hx with hm | ⟨hid, hact, hsrc⟩
        · left; exact hm
        · right; exact ⟨hid, activeColumns cl, hact, hsrc⟩

/-! ## The claims -/

/-- Claim C1 (amended): the push-down walk starts at the first subquery of
the augmented query, and every subquery the walk reaches that has a
non-empty `FROM` list and a select sink (a plain query, not a set
operation) ends with the pushed base columns among its `SELECT` aliases.
The walk's root is always reached. -/
theorem c1_pushdown_patches (σ : Store) (root : QId) (cols : List String) :
    root ∈ (subqueryPushdown σ root cols).2 ∧
    ∀ i ∈ (subqueryPushdown σ root cols).2, ∀ p,
      qlookup (subqueryPushdown σ root cols).1 i = some (.plain p) →
      p.frm ≠ [] → ∀ c ∈ cols, c ∈ p.sel.map SelectItem.as := by
  refine ⟨subqueryPushdown_root_mem σ root cols, ?_⟩
  intro i hi p hl hf c hc
  exact pushdownGo_sound cols (pushdownFuel σ [root]) σ [] [root]
    (by intro k hk; cases hk) i hi p hl hf c hc

/-- Witness for C1's amended theorem: pushing `["c"]` from node 1 of
`c1Store` reaches node 1 and leaves `"c"` among its `SELECT` aliases. -/
theorem c1_pushdown_patches_witness :
    1 ∈ (subqueryPushdown c1Store 1 ["c"]).2 ∧
    qlookup (subqueryPushdown c1Store 1 ["c"]).1 1 = some (.plain c1Node1Pushed) ∧
    c1Node1Pushed.frm ≠ [] ∧
    "c" ∈ c1Node1Pushed.sel.map SelectItem.as := by
  refine ⟨by decide, by decide, by decide, ?_⟩
  exact (c1_pushdown_patches c1Store 1 ["c"]).2 1 (by decide) c1Node1Pushed
    (by decide) (by decide) "c" (by decide)

/-- Counterexample to Claim C1 as stated: on a client query with two
inline `FROM` subqueries, the planner pushes the active base column `"c"`
only into the first; node 2 remains a subquery of the augmented query with
a non-empty `FROM` list and a select sink whose `SELECT` list does not
contain `"c"`. -/
theorem c1_counterexample :
    2 ∈ (subqueriesOf
          (dataCubeInfo c1Store 0 (activeColumns exPointClause) exIndexCols
            "mosaic").2 0).2 ∧
    "c" ∈ (((activeColumns exPointClause).columns.getD []).map Prod.snd).flatMap
        SqlExpr.columns ∧
    qlookup (dataCubeInfo c1Store 0 (activeColumns exPointClause) exIndexCols
        "mosaic").2 2 = some (.plain c1Node2) ∧
    c1Node2.frm ≠ [] ∧
    "c" ∉ c1Node2.sel.map SelectItem.as := by
  refine ⟨by decide, by decide, by decide, by decide, by decide⟩

/-- Claim C2: on an enabled indexer with a cached active-clause analysis
matching the clause's source, calling `index` again with the same client
and clause returns exactly the value stored in the cache by the first
call, leaves the state unchanged, and submits no DDL batch. -/
theorem c2_index_idempotent (s : IndexerState) (client : Client)
    (sel : Selection) (cl : Clause) (a : ActiveCols)
    (h1 : s.enabled = true) (h2 : cl.source.truthy = true)
    (h3 : s.active = some a) (h4 : a.source = cl.source) :
    indexOp (indexOp s client sel cl).2.1 client sel cl =
      ((indexOp s client sel cl).1, (indexOp s client sel cl).2.1, []) ∧
    (indexOp s client sel cl).2.1.indexes.lookup client.id =
      some (indexOp s client sel cl).1 := by
  have h6 : cl.source ≠ JSVal.null := JSVal.ne_null_of_truthy h2
  have h5 : a.source ≠ JSVal.null := by rw [h4]; exact h6
  have hfst : indexOp s client sel cl = indexLookup s a client sel cl := by
    unfold indexOp
    rw [h3]
    simp [h1, h2, h4, h5, h6]
  obtain ⟨hlk, hact, hen, hsch⟩ := indexLookup_state s a client sel cl
  rw [hfst]
  refine ⟨?_, hlk⟩
  unfold indexOp
  rw [hen, hact, h3]
  simp [h1, h2, h4, h5, h6]
  exact indexLookup_cached hlk

/-- Witness for C2 at a concrete enabled state caching the analysis of
`exPointClause`. -/
theorem c2_index_idempotent_witness :
    exState.enabled = true ∧
    (activeColumns exPointClause).source = exPointClause.source ∧
    indexOp (indexOp exState exClient exSelection exPointClause).2.1
        exClient exSelection exPointClause =
      ((indexOp exState exClient exSelection exPointClause).1,
       (indexOp exState exClient exSelection exPointClause).2.1, []) := by
  refine ⟨rfl, by decide, ?_⟩
  exact (c2_index_idempotent exState exClient exSelection exPointClause
    (activeColumns exPointClause) rfl (by decide) rfl (by decide)).1

/-- Claim C3: a reachable indexer with the enabled flag false returns null
from `index` for any arguments without touching state or issuing DDL, has
a null active analysis and an empty cache; and disabling an enabled
indexer clears the caches as the flag changes. -/
theorem c3_disabled_indexer :
    (∀ s : IndexerState, Reachable s → s.enabled = false →
      (∀ (client : Client) (sel : Selection) (cl : Clause),
        indexOp s client sel cl = (none, s, [])) ∧
      s.active = none ∧ s.indexes = []) ∧
    (∀ s : IndexerState, s.enabled = true →
      setEnabled s false =
        { indexes := [], active := none, schema := s.schema,
          enabled := false }) := by
  constructor
  · intro s hr hd
    exact ⟨fun client sel cl => indexOp_disabled client sel cl hd,
      disabled_invariant hr hd⟩
  · intro s he
    unfold setEnabled
    rw [if_pos (by simp [he]), if_pos rfl]
    rfl

/-- Witness for C3 at a freshly constructed disabled indexer, and for the
setter at a freshly constructed enabled one. -/
theorem c3_disabled_indexer_witness :
    indexOp ⟨[], none, "mosaic", false⟩ exClient exSelection exPointClause =
      (none, ⟨[], none, "mosaic", false⟩, []) ∧
    (⟨[], none, "mosaic", false⟩ : IndexerState).active = none ∧
    (⟨[], none, "mosaic", false⟩ : IndexerState).indexes = [] ∧
    setEnabled ⟨[], none, "mosaic", true⟩ false = ⟨[], none, "mosaic", false⟩ := by
  obtain ⟨hidx, hact, hmap⟩ :=
    c3_disabled_indexer.1 ⟨[], none, "mosaic", false⟩
      (Reachable.init "mosaic" false) rfl
  exact ⟨hidx exClient exSelection exPointClause, hact, hmap,
    c3_disabled_indexer.2 ⟨[], none, "mosaic", true⟩ rfl⟩

/-- Claim C4: an `index` call on an indexer whose cached analysis has a
non-null source different from the clause's source behaves exactly as the
same call on the cleared indexer (the caches are emptied before
re-analysis); a reachable state with a non-empty cache has a cached
analysis; and every cache entry an `index` call leaves behind is either
inherited or was stored for the called client while the cached analysis
source equals the populating clause's source. -/
theorem c4_source_change :
    (∀ (s : IndexerState) (client : Client) (sel : Selection) (cl : Clause)
        (a : ActiveCols),
      s.enabled = true → cl.source.truthy = true → s.active = some a →
      a.source ≠ JSVal.null → a.source ≠ cl.source →
      indexOp s client sel cl = indexOp (clearState s) client sel cl) ∧
    (∀ s : IndexerState, Reachable s → s.indexes ≠ [] →
      ∃ a, s.active = some a) ∧
    (∀ (s : IndexerState) (client : Client) (sel : Selection) (cl : Clause),
      ∀ x ∈ (indexOp s client sel cl).2.1.indexes,
        x ∈ s.indexes ∨ (x.1 = client.id ∧
          ∃ a, (indexOp s client sel cl).2.1.active = some a ∧
            a.source = cl.source)) := by
  refine ⟨?_, fun s hr => nonempty_active hr, indexOp_populate⟩
  intro s client sel cl a h1 h2 h3 h4 h5
  have hL : indexOp s client sel cl =
      indexAnalyze (clearState s) client sel cl := by
    unfold indexOp
    rw [h3]
    simp [h1, h2, h5]
  have hR : indexOp (clearState s) client sel cl =
      indexAnalyze (clearState s) client sel cl := by
    unfold indexOp
    simp [clearState, h1, h2]
  rw [hL, hR]

/-- Witness for C4: the clear-first equation at a state caching a `"T"`
source while the clause's source is `"S"`; the invariant at a reachable
state populated by one `index` call; the population property at the entry
that call stored. -/
theorem c4_source_change_witness :
    indexOp exStateT exClient exSelection exPointClause =
      indexOp (clearState exStateT) exClient exSelection exPointClause ∧
    (∃ a, (indexOp exInitState exClient exSelection exPointClause).2.1.active
      = some a) ∧
    ((7, (indexOp exInitState exClient exSelection exPointClause).1) ∈
        exInitState.indexes ∨
      ((7, (indexOp exInitState exClient exSelection exPointClause).1).1
          = exClient.id ∧
        ∃ a, (indexOp exInitState exClient exSelection exPointClause).2.1.active
            = some a ∧ a.source = exPointClause.source)) := by
  have hre : Reachable exInitState := by
    unfold exInitState
    exact Reachable.init "mosaic" true
  have hsteq : (indexOp exInitState exClient exSelection exPointClause).2.1.indexes
      = [(7, (indexOp exInitState exClient exSelection exPointClause).1)] := rfl
  refine ⟨?_, ?_, ?_⟩
  · exact c4_source_change.1 exStateT exClient exSelection exPointClause
      (activeColumns exPointClauseT) rfl (by decide) rfl (by decide) (by decide)
  · refine c4_source_change.2.1
      (indexOp exInitState exClient exSelection exPointClause).2.1
      (Reachable.indexed exClient exSelection exPointClause hre) ?_
    intro h
    rw [hsteq] at h
    exact List.noConfusion h
  · exact c4_source_change.2.2 exInitState exClient exSelection exPointClause
      (7, (indexOp exInitState exClient exSelection exPointClause).1)
      (by rw [hsteq]; exact List.mem_cons_self _ _)

/-- Claim C5: for every `CubeInfo` built by the planner and every
predicate, `query(p)` is `select.clone().where(active.predicate(p))`; the
stored select template carries no `WHERE` clause, and each `query` call's
result carries exactly the predicate's conjuncts — with a pure template,
repeated calls cannot accumulate `WHERE` terms on the template or on each
other's results. -/
theorem c5_cube_query (σ : Store) (root : QId) (a : ActiveCols)
    (ic : IndexCols) (schema : String) (p : PredParam) :
    (dataCubeInfo σ root a ic schema).1.select.whr = [] ∧
    DataCubeInfo.query (dataCubeInfo σ root a ic schema).1 p =
      queryWhere (queryClone (dataCubeInfo σ root a ic schema).1.select)
        (activePredicateApply (dataCubeInfo σ root a ic schema).1.active p) ∧
    (DataCubeInfo.query (dataCubeInfo σ root a ic schema).1 p).whr =
      activePredicateApply (dataCubeInfo σ root a ic schema).1.active p := by
  refine ⟨rfl, rfl, ?_⟩
  have h0 : (dataCubeInfo σ root a ic schema).1.select.whr = [] := rfl
  simp [DataCubeInfo.query, queryWhere, queryClone, h0]

/-- Claim C6: for every supported scale the synthesized bin expression is
`<fn>(a/pixelSize::DOUBLE * (sqlApply(value) - lo::DOUBLE))::INTEGER` with
the factor omitted exactly when `a/pixelSize = 1` and the `- lo` term
omitted exactly when `lo = 0` (the shape `specBinExpr`, written from the
spec's words); in particular a linear scale with domain `[0,100]`, range
`[0,500]`, pixel size 1 and floor binning yields
`FLOOR(5::DOUBLE * (x))::INTEGER`. -/
theorem c6_bin_expression (scale : Scale) (ap : JsNum → JsNum) (px : JsNum)
    (bin : Option String) (v : SqlValue)
    (happ : scale.apply = some ap) (hdom : scale.domain ≠ []) :
    ((binInterval scale px bin).map fun f => f v) =
      some (specBinExpr (binFnName bin) (JsNum.div (specBinFactor scale ap) px)
        (specBinLo scale ap) (scale.sqlApply v) v.columns) ∧
    ((binInterval linearScaleEx 1 (some "floor")).map fun f =>
        f (SqlValue.expr (SqlExpr.raw "x" ["x"]))) =
      some (SqlExpr.raw "FLOOR(5::DOUBLE * (x))::INTEGER" ["x"]) := by
  constructor
  · cases hd : scale.domain with
    | nil => exact absurd hd hdom
    | cons d0 ds =>
      simp only [binInterval, scaleTransform, happ, hd]
      simp only [specBinExpr, specBinFactor, specBinLo, hd]
      rfl
  · rfl

/-- Witness for C6: the general shape applied to the concrete linear
scale. -/
theorem c6_bin_expression_witness :
    linearScaleEx.apply = some id ∧
    ((binInterval linearScaleEx 1 (some "floor")).map fun f =>
        f (SqlValue.expr (SqlExpr.raw "x" ["x"]))) =
      some (specBinExpr (binFnName (some "floor"))
        (JsNum.div (specBinFactor linearScaleEx id) 1) (specBinLo linearScaleEx id)
        (linearScaleEx.sqlApply (SqlValue.expr (SqlExpr.raw "x" ["x"])))
        (SqlValue.expr (SqlExpr.raw "x" ["x"])).columns) := by
  refine ⟨rfl, ?_⟩
  exact (c6_bin_expression linearScaleEx id 1 (some "floor")
    (SqlValue.expr (SqlExpr.raw "x" ["x"])) rfl (by decide)).1

/-- Claim C7 (amended): the bin synthesizer selects the SQL rounding
function case-insensitively — any casing of `ceil` yields `CEIL`, any
casing of `round` yields `ROUND`, and any casing of `floor`, an undefined
bin method, and every other value yields `FLOOR` — except the lowercased
keys `constructor` and `__proto__`, which hit truthy inherited
`Object.prototype` properties, so the `FLOOR` fallback does not fire for
them. -/
theorem c7_bin_fn_case_insensitive :
    (∀ s : String, jsToLower s = "ceil" → binFnName (some s) = "CEIL") ∧
    (∀ s : String, jsToLower s = "round" → binFnName (some s) = "ROUND") ∧
    (∀ s : String, jsToLower s ≠ "ceil" → jsToLower s ≠ "round" →
      jsToLower s ≠ "constructor" → jsToLower s ≠ "__proto__" →
      binFnName (some s) = "FLOOR") ∧
    binFnName none = "FLOOR" ∧
    binFnName (some "constructor") ≠ "FLOOR" ∧
    binFnName (some "__proto__") ≠ "FLOOR" := by
  refine ⟨?_, ?_, ?_, by rfl, by decide, by decide⟩
  · intro s h
    simp only [binFnName, jsCoerce, h]
    rfl
  · intro s h
    simp only [binFnName, jsCoerce, h]
    rfl
  · intro s h1 h2 h3 h4
    simp only [binFnName, jsCoerce, BIN, List.lookup,
      beq_false_of_ne h1, beq_false_of_ne h2, if_neg h3, if_neg h4]

/-- Witness for C7's amended theorem at concrete casings and a fallback
value. -/
theorem c7_bin_fn_case_insensitive_witness :
    binFnName (some "CeIl") = "CEIL" ∧ binFnName (some "ROUND") = "ROUND" ∧
    binFnName (some "FlOoR") = "FLOOR" ∧ binFnName (some "trunc") = "FLOOR" :=
  ⟨c7_bin_fn_case_insensitive.1 "CeIl" (by decide),
   c7_bin_fn_case_insensitive.2.1 "ROUND" (by decide),
   c7_bin_fn_case_insensitive.2.2.1 "FlOoR" (by decide) (by decide)
     (by decide) (by decide),
   c7_bin_fn_case_insensitive.2.2.1 "trunc" (by decide) (by decide)
     (by decide) (by decide)⟩

/-- Counterexample to Claim C7 as stated: `"constructor"` is not a casing
of `ceil`, `round` or `floor`, yet the lookup hits the inherited
`Object.prototype.constructor`, a truthy value, so the program does not
fall back to `FLOOR`. -/
theorem c7_bin_fn_counterexample :
    jsToLower "constructor" ≠ "ceil" ∧ jsToLower "constructor" ≠ "round" ∧
    jsToLower "constructor" ≠ "floor" ∧
    binFnName (some "constructor") ≠ "FLOOR" := by
  decide

/-- Claim C8: within one schema, two planner invocations that produce the
same DDL string produce the same id and the same table name — the id is a
pure function of the DDL text. -/
theorem c8_id_pure_function (σ1 : Store) (r1 : QId) (a1 : ActiveCols)
    (ic1 : IndexCols) (σ2 : Store) (r2 : QId) (a2 : ActiveCols)
    (ic2 : IndexCols) (schema : String)
    (h : (dataCubeInfo σ1 r1 a1 ic1 schema).1.create =
         (dataCubeInfo σ2 r2 a2 ic2 schema).1.create) :
    (dataCubeInfo σ1 r1 a1 ic1 schema).1.id =
      (dataCubeInfo σ2 r2 a2 ic2 schema).1.id ∧
    (dataCubeInfo σ1 r1 a1 ic1 schema).1.table =
      (dataCubeInfo σ2 r2 a2 ic2 schema).1.table := by
  have hid1 : (dataCubeInfo σ1 r1 a1 ic1 schema).1.id
      = natToHex (fnv_hash (dataCubeInfo σ1 r1 a1 ic1 schema).1.create) := rfl
  have hid2 : (dataCubeInfo σ2 r2 a2 ic2 schema).1.id
      = natToHex (fnv_hash (dataCubeInfo σ2 r2 a2 ic2 schema).1.create) := rfl
  have htb1 : (dataCubeInfo σ1 r1 a1 ic1 schema).1.table
      = schema ++ ".cube_" ++ (dataCubeInfo σ1 r1 a1 ic1 schema).1.id := rfl
  have htb2 : (dataCubeInfo σ2 r2 a2 ic2 schema).1.table
      = schema ++ ".cube_" ++ (dataCubeInfo σ2 r2 a2 ic2 schema).1.id := rfl
  constructor
  · rw [hid1, hid2, h]
  · rw [htb1, htb2, hid1, hid2, h]

/-- Witness for C8: two distinct planner inputs (the same client query
with and without an unreferenced extra store node) print the same DDL and
therefore share id and table. -/
theorem c8_id_pure_function_witness :
    (dataCubeInfo exClientStore 0 (activeColumns exPointClause) exIndexCols
        "mosaic").1.create =
      (dataCubeInfo exStoreB 0 (activeColumns exPointClause) exIndexCols
        "mosaic").1.create ∧
    (dataCubeInfo exClientStore 0 (activeColumns exPointClause) exIndexCols
        "mosaic").1.id =
      (dataCubeInfo exStoreB 0 (activeColumns exPointClause) exIndexCols
        "mosaic").1.id ∧
    (dataCubeInfo exClientStore 0 (activeColumns exPointClause) exIndexCols
        "mosaic").1.table =
      (dataCubeInfo exStoreB 0 (activeColumns exPointClause) exIndexCols
        "mosaic").1.table := by
  have h : (dataCubeInfo exClientStore 0 (activeColumns exPointClause)
      exIndexCols "mosaic").1.create =
      (dataCubeInfo exStoreB 0 (activeColumns exPointClause) exIndexCols
        "mosaic").1.create := by decide
  exact ⟨h, c8_id_pure_function exClientStore 0 (activeColumns exPointClause)
    exIndexCols exStoreB 0 (activeColumns exPointClause) exIndexCols "mosaic" h⟩

theorem indexAnalyze_build {s : IndexerState} {client : Client}
    {sel : Selection} {cl : Clause} {ic : IndexCols}
    (h3 : (activeColumns cl).source ≠ JSVal.null)
    (hl : s.indexes.lookup client.id = none)
    (h4 : client.indexCols = some ic)
    (h5 : sel.skip client.id cl = false) :
    (indexAnalyze s client sel cl).2.2 =
      [["CREATE SCHEMA IF NOT EXISTS " ++ s.schema,
        createTableStmt
          (dataCubeInfo
            (client.query (sel.removePredicate cl.source client.id)).1
            (client.query (sel.removePredicate cl.source client.id)).2
            (activeColumns cl) ic s.schema).1.table
          (dataCubeInfo
            (client.query (sel.removePredicate cl.source client.id)).1
            (client.query (sel.removePredicate cl.source client.id)).2
            (activeColumns cl) ic s.schema).1.create]] := by
  unfold indexAnalyze
  rw [if_neg h3]
  unfold indexLookup
  simp only [show ({ s with active := some (activeColumns cl) } :
      IndexerState).indexes = s.indexes from rfl, hl, h4]
  simp [h5]

/-- Claim C9: `dropIndexTables` clears all local state and submits, as one
single-statement batch, exactly `DROP SCHEMA IF EXISTS "<schema>" CASCADE`;
a subsequent successful `index` call submits a batch whose first statement
re-issues `CREATE SCHEMA IF NOT EXISTS <schema>` before the table DDL. -/
theorem c9_drop_index_tables (s : IndexerState) :
    dropIndexTables s =
      (⟨[], none, s.schema, s.enabled⟩,
       [["DROP SCHEMA IF EXISTS \"" ++ s.schema ++ "\" CASCADE"]]) ∧
    (∀ (client : Client) (sel : Selection) (cl : Clause) (ic : IndexCols),
      s.enabled = true → cl.source.truthy = true →
      (activeColumns cl).source ≠ JSVal.null →
      client.indexCols = some ic → sel.skip client.id cl = false →
      ∃ ddl, (indexOp (dropIndexTables s).1 client sel cl).2.2 =
        [["CREATE SCHEMA IF NOT EXISTS " ++ s.schema, ddl]]) := by
  constructor
  · rfl
  · intro client sel cl ic h1 h2 h3 h4 h5
    have hstep : indexOp (clearState s) client sel cl =
        indexAnalyze (clearState s) client sel cl := by
      unfold indexOp
      simp [clearState, h1, h2]
    show ∃ ddl, (indexOp (clearState s) client sel cl).2.2 = _
    rw [hstep]
    exact ⟨_, indexAnalyze_build h3 rfl h4 h5⟩

/-- Witness for C9 on a fresh enabled indexer with the concrete client,
selection and point clause. -/
theorem c9_drop_index_tables_witness :
    dropIndexTables exInitState =
      (⟨[], none, "mosaic", true⟩,
       [["DROP SCHEMA IF EXISTS \"mosaic\" CASCADE"]]) ∧
    ∃ ddl, (indexOp (dropIndexTables exInitState).1 exClient exSelection
        exPointClause).2.2 =
      [["CREATE SCHEMA IF NOT EXISTS mosaic", ddl]] :=
  ⟨(c9_drop_index_tables exInitState).1,
   (c9_drop_index_tables exInitState).2 exClient exSelection exPointClause
     exIndexCols rfl (by decide) (by decide) rfl rfl⟩

/-- Claim C10: on an enabled indexer, a clause whose source is falsy but
not null (0, the empty string, false) makes `index` return null without
touching the cache or the active analysis and without issuing DDL — the
guard tests falsiness, not only null. -/
theorem c10_falsy_source (s : IndexerState) (client : Client)
    (sel : Selection) (cl : Clause) (h1 : s.enabled = true)
    (h2 : cl.source.truthy = false) (_h3 : cl.source ≠ JSVal.null) :
    indexOp s client sel cl = (none, s, []) := by
  unfold indexOp
  simp [h1, h2]

/-- Witness for C10 at the clause whose source is the number 0. -/
theorem c10_falsy_source_witness :
    exFalsyClause.source = JSVal.num 0 ∧
    indexOp exInitState exClient exSelection exFalsyClause =
      (none, exInitState, []) :=
  ⟨rfl, c10_falsy_source exInitState exClient exSelection exFalsyClause rfl
    (by decide) (by decide)⟩
